import Mathlib

/-!
Verification of the live-reconfigurable port/connection subsystem of the
flow-based-programming repository (package flow, together with the
StringConnection variant and the Network scheduler).

Channels are identified by natural numbers.  The Go context is reduced to
its cancellation flag; ctx.Err() returns the cancellation error exactly
when the flag is set.  The blocking behaviour of In.Recv and Out.Send,
including the select statement and the unbuffered ping channel used by
swap, is embedded as a labelled small-step transition system, one system
per port direction, with environment labels for context cancellation,
swap (issued by Connect/Disconnect) and the arrival of a transfer partner
on a channel.
-/

namespace Flow

/-- Channel identity: data channels allocated by Connect are numbered. -/
abbrev Chan := Nat

/-- Go error values that the subsystem can produce or aggregate:
context.Canceled, or an arbitrary component failure. -/
inductive GError where
  | canceled : GError
  | failure (n : Nat) : GError
deriving DecidableEq, Repr

/-- Program counter of a task executing In.Recv.  The select statement of
the source evaluates in.current() once per iteration (state `evaluated c`
holds that snapshot) and then, if no case is ready, parks on exactly the
channels it evaluated (state `parked c`).  `ret v e` is the pair the Go
function returns. -/
inductive RecvPC where
  | start : RecvPC
  | loopTop : RecvPC
  | drained : RecvPC
  | evaluated (c : Option Chan) : RecvPC
  | parked (c : Option Chan) : RecvPC
  | ret (v : Nat) (e : Option GError) : RecvPC
deriving DecidableEq, Repr

/-- State of one In port together with the single task calling Recv on it
and its environment: `current` is the data field guarded by the mutex,
`pingCreated` the sync.Once flag, `cancelled` the shared context, and
`pending` the senders currently ready on each channel (channel id paired
with the value they offer). -/
structure InSys where
  current : Option Chan
  pingCreated : Bool
  cancelled : Bool
  pending : List (Chan × Nat)
  pc : RecvPC
deriving DecidableEq, Repr

/-- Transition labels: `task` is a step of the Recv code itself (including
a rendezvous with a ready sender), the rest are environment events. -/
inductive InLabel where
  | task : InLabel
  | cancel : InLabel
  | swap (nc : Option Chan) : InLabel
  | arrive (ch : Chan) (v : Nat) : InLabel
deriving DecidableEq, Repr

/-- Does the snapshot channel have a ready transfer partner?  A nil
channel never has one: receiving from a nil channel blocks forever. -/
def chanReady (c : Option Chan) (pending : List (Chan × Nat)) : Bool :=
  match c with
  | none => false
  | some ch => pending.any (fun p => p.1 == ch)

/-- Effect of the non-blocking ping send inside swap on the Recv task.
The ping channel is unbuffered, so the send pairs with a receiver only if
the task is already parked inside the select; in every other state the
default branch is taken and the signal is skipped. -/
def notifyPC : RecvPC → RecvPC
  | .parked _ => .loopTop
  | pc => pc

/-- State after in.swap(nc): the mutex-guarded write of the data field,
the sync.Once init of the ping channel, then the non-blocking notify. -/
def swapEff (nc : Option Chan) (s : InSys) : InSys :=
  { s with current := nc, pingCreated := true, pc := notifyPC s.pc }

/-- Small-step semantics of In.Recv (source lines 217-238) together with
its environment.  The drain select at the top of the loop is a
non-blocking receive on the unbuffered ping channel; its only sender,
swap, sends non-blockingly, and two non-blocking operations on an
unbuffered channel never pair, so the drain never transfers. -/
inductive InStep : InLabel → InSys → InSys → Prop where
  | start_cancel (s : InSys) (hpc : s.pc = .start) (hc : s.cancelled = true) :
      InStep .task s { s with pc := .ret 0 (some .canceled) }
  | start_ok (s : InSys) (hpc : s.pc = .start) (hc : s.cancelled = false) :
      InStep .task s { s with pc := .loopTop, pingCreated := true }
  | drain (s : InSys) (hpc : s.pc = .loopTop) :
      InStep .task s { s with pc := .drained }
  | read_current (s : InSys) (hpc : s.pc = .drained) :
      InStep .task s { s with pc := .evaluated s.current }
  | poll_cancel (s : InSys) (c : Option Chan) (hpc : s.pc = .evaluated c)
      (hc : s.cancelled = true) :
      InStep .task s { s with pc := .ret 0 (some .canceled) }
  | poll_transfer (s : InSys) (ch : Chan) (v : Nat)
      (hpc : s.pc = .evaluated (some ch)) (hm : (ch, v) ∈ s.pending) :
      InStep .task s { s with pc := .ret v none, pending := s.pending.erase (ch, v) }
  | park (s : InSys) (c : Option Chan) (hpc : s.pc = .evaluated c)
      (hc : s.cancelled = false) (hr : chanReady c s.pending = false) :
      InStep .task s { s with pc := .parked c }
  | parked_cancel (s : InSys) (c : Option Chan) (hpc : s.pc = .parked c)
      (hc : s.cancelled = true) :
      InStep .task s { s with pc := .ret 0 (some .canceled) }
  | parked_transfer (s : InSys) (ch : Chan) (v : Nat)
      (hpc : s.pc = .parked (some ch)) (hm : (ch, v) ∈ s.pending) :
      InStep .task s { s with pc := .ret v none, pending := s.pending.erase (ch, v) }
  | cancel (s : InSys) :
      InStep .cancel s { s with cancelled := true }
  | swapStep (nc : Option Chan) (s : InSys) :
      InStep (.swap nc) s (swapEff nc s)
  | arrive (ch : Chan) (v : Nat) (s : InSys) :
      InStep (.arrive ch v) s { s with pending := s.pending ++ [(ch, v)] }

/-- Reflexive-transitive closure of the In-port system. -/
inductive InReach : InSys → InSys → Prop where
  | refl (s : InSys) : InReach s s
  | step {l : InLabel} {s t u : InSys}
      (h : InStep l s t) (ht : InReach t u) : InReach s u

/-- Program counter of a task executing Out.Send; the function returns
only an error, held by `ret e`. -/
inductive SendPC where
  | start : SendPC
  | loopTop : SendPC
  | drained : SendPC
  | evaluated (c : Option Chan) : SendPC
  | parked (c : Option Chan) : SendPC
  | ret (e : Option GError) : SendPC
deriving DecidableEq, Repr

/-- State of one Out port with the single task calling Send on it:
`recvReady` lists the channels on which a receiver is currently ready,
`delivered` records the completed hand-offs, `v` is the argument of the
Send call. -/
structure OutSys where
  current : Option Chan
  pingCreated : Bool
  cancelled : Bool
  recvReady : List Chan
  delivered : List (Chan × Nat)
  v : Nat
  pc : SendPC
deriving DecidableEq, Repr

/-- Transition labels for the Out-port system; `arrive ch` is a receiver
becoming ready on channel ch. -/
inductive OutLabel where
  | task : OutLabel
  | cancel : OutLabel
  | swap (nc : Option Chan) : OutLabel
  | arrive (ch : Chan) : OutLabel
deriving DecidableEq, Repr

/-- Does the snapshot channel have a ready receiver?  Sending on a nil
channel blocks forever. -/
def sendReady (c : Option Chan) (ready : List Chan) : Bool :=
  match c with
  | none => false
  | some ch => ready.any (fun r => r == ch)

/-- Effect of the non-blocking ping send inside out.swap on the Send task
(unbuffered ping: wakes the task only when it is parked). -/
def notifySPC : SendPC → SendPC
  | .parked _ => .loopTop
  | pc => pc

/-- State after out.swap(nc). -/
def swapEffO (nc : Option Chan) (s : OutSys) : OutSys :=
  { s with current := nc, pingCreated := true, pc := notifySPC s.pc }

/-- Small-step semantics of Out.Send (source lines 269-290) together with
its environment; structurally the mirror image of In.Recv. -/
inductive OutStep : OutLabel → OutSys → OutSys → Prop where
  | start_cancel (s : OutSys) (hpc : s.pc = .start) (hc : s.cancelled = true) :
      OutStep .task s { s with pc := .ret (some .canceled) }
  | start_ok (s : OutSys) (hpc : s.pc = .start) (hc : s.cancelled = false) :
      OutStep .task s { s with pc := .loopTop, pingCreated := true }
  | drain (s : OutSys) (hpc : s.pc = .loopTop) :
      OutStep .task s { s with pc := .drained }
  | read_current (s : OutSys) (hpc : s.pc = .drained) :
      OutStep .task s { s with pc := .evaluated s.current }
  | poll_cancel (s : OutSys) (c : Option Chan) (hpc : s.pc = .evaluated c)
      (hc : s.cancelled = true) :
      OutStep .task s { s with pc := .ret (some .canceled) }
  | poll_transfer (s : OutSys) (ch : Chan)
      (hpc : s.pc = .evaluated (some ch)) (hm : ch ∈ s.recvReady) :
      OutStep .task s { s with pc := .ret none, recvReady := s.recvReady.erase ch,
                               delivered := s.delivered ++ [(ch, s.v)] }
  | park (s : OutSys) (c : Option Chan) (hpc : s.pc = .evaluated c)
      (hc : s.cancelled = false) (hr : sendReady c s.recvReady = false) :
      OutStep .task s { s with pc := .parked c }
  | parked_cancel (s : OutSys) (c : Option Chan) (hpc : s.pc = .parked c)
      (hc : s.cancelled = true) :
      OutStep .task s { s with pc := .ret (some .canceled) }
  | parked_transfer (s : OutSys) (ch : Chan)
      (hpc : s.pc = .parked (some ch)) (hm : ch ∈ s.recvReady) :
      OutStep .task s { s with pc := .ret none, recvReady := s.recvReady.erase ch,
                               delivered := s.delivered ++ [(ch, s.v)] }
  | cancel (s : OutSys) :
      OutStep .cancel s { s with cancelled := true }
  | swapStep (nc : Option Chan) (s : OutSys) :
      OutStep (.swap nc) s (swapEffO nc s)
  | arrive (ch : Chan) (s : OutSys) :
      OutStep (.arrive ch) s { s with recvReady := s.recvReady ++ [ch] }

/-- Reflexive-transitive closure of the Out-port system. -/
inductive OutReach : OutSys → OutSys → Prop where
  | refl (s : OutSys) : OutReach s s
  | step {l : OutLabel} {s t u : OutSys}
      (h : OutStep l s t) (ht : OutReach t u) : OutReach s u

/-!
Functional world model of the wiring layer: the mutable fields of the In
and Out structures (both have exactly the fields data, ping, create; they
are modelled by one port-state record), the Connect constructor and
Conn.Disconnect.  The ping field holds the identity of the lazily created
ping channel (none before the sync.Once body has run); `swaps` is a ghost
counter of swap invocations on the port, used to compare the code against
the exactly-once claim of the spec. -/

/-- Mutable state of one port (fields data and ping of In and Out; the
sync.Once flag is the isSome of `ping`).  `swaps` is instrumentation, not
a source field: it counts calls to the swap method. -/
structure PortSt where
  data : Option Chan
  ping : Option Nat
  swaps : Nat
deriving DecidableEq, Repr

instance : Inhabited PortSt := ⟨⟨none, none, 0⟩⟩

/-- in.init() / out.init(): create.Do runs the ping allocation only the
first time. -/
def PortSt.init (fresh : Nat) (p : PortSt) : PortSt :=
  match p.ping with
  | some _ => p
  | none => { p with ping := some fresh }

/-- Body of swap after init: the mutex-guarded write of data, counted. -/
def PortSt.swapData (nc : Option Chan) (p : PortSt) : PortSt :=
  { p with data := nc, swaps := p.swaps + 1 }

/-- World state: the out ports and in ports of all components (by index),
a fresh-id allocator for data channels, the capacity of each allocated
data channel (make(chan T) is unbuffered), the set of closed data
channels (ghost: the core never calls close), and a fresh-id allocator
for ping channels. -/
structure FlowW where
  outs : List PortSt
  ins : List PortSt
  nextChan : Nat
  caps : List Nat
  closed : List Chan
  nextPing : Nat
deriving DecidableEq, Repr

/-- out.swap(nc) on port index i. -/
def FlowW.swapOut (w : FlowW) (i : Nat) (nc : Option Chan) : FlowW :=
  { w with outs := w.outs.set i (((w.outs.getD i default).init w.nextPing).swapData nc),
           nextPing := w.nextPing + 1 }

/-- in.swap(nc) on port index i. -/
def FlowW.swapIn (w : FlowW) (i : Nat) (nc : Option Chan) : FlowW :=
  { w with ins := w.ins.set i (((w.ins.getD i default).init w.nextPing).swapData nc),
           nextPing := w.nextPing + 1 }

/-- Connection handle: references (indices of) the two ports it wired,
matching the from and to fields of Conn. -/
structure Conn where
  from_ : Nat
  to_ : Nat
deriving DecidableEq, Repr

/-- Connect (source lines 169-179): records the two ports in the handle,
allocates a fresh unbuffered data channel, installs it on the out port
then on the in port via swap. -/
def Connect (fromIdx toIdx : Nat) (w : FlowW) : Conn × FlowW :=
  let data := w.nextChan
  let w1 : FlowW := { w with nextChan := w.nextChan + 1, caps := w.caps ++ [0] }
  let w2 := w1.swapOut fromIdx (some data)
  let w3 := w2.swapIn toIdx (some data)
  (⟨fromIdx, toIdx⟩, w3)

/-- Conn.Disconnect (source lines 181-184): swap(nil) on the out port,
then swap(nil) on the in port.  There is no guard of any kind. -/
def Conn.Disconnect (c : Conn) (w : FlowW) : FlowW :=
  (w.swapOut c.from_ none).swapIn c.to_ none

/-- One wiring-layer operation. -/
inductive FlowOp where
  | connect (i j : Nat) : FlowOp
  | disconnect (c : Conn) : FlowOp
  | swapOutOp (i : Nat) (nc : Option Chan) : FlowOp
  | swapInOp (i : Nat) (nc : Option Chan) : FlowOp
deriving DecidableEq, Repr

/-- Apply one wiring-layer operation to the world. -/
def applyOp : FlowOp → FlowW → FlowW
  | .connect i j, w => (Connect i j w).2
  | .disconnect c, w => c.Disconnect w
  | .swapOutOp i nc, w => w.swapOut i nc
  | .swapInOp i nc, w => w.swapIn i nc

/-- Apply a sequence of wiring-layer operations, in order. -/
def applyOps (ops : List FlowOp) (w : FlowW) : FlowW :=
  ops.foldl (fun w op => applyOp op w) w

/-- Model of the non-blocking notify select inside swap on the unbuffered
ping channel, at channel level: given the number of tasks parked on the
ping channel it returns the number still parked and the number woken.
With no parked listener the default branch is taken and nothing blocks. -/
def notifySend (waiters : Nat) : Nat × Nat :=
  match waiters with
  | 0 => (0, 0)
  | n + 1 => (n, 1)

/-!
Model of the StringConnection variant: Cut runs close(stop) through a
sync.Once, so repeated or concurrent Cut calls close the stop channel
exactly once.  `closeCount` is a ghost counter of how many times the
Once body actually ran. -/

/-- StringConnection teardown state: the sync.Once flag, whether the stop
channel is closed, and a ghost count of executions of the Once body. -/
structure StringConnection where
  cutDone : Bool
  stopClosed : Bool
  closeCount : Nat
deriving DecidableEq, Repr

/-- StringConnection.Cut (source lines 124-127): conn.cut.Do runs its
body only the first time. -/
def StringConnection.Cut (c : StringConnection) : StringConnection :=
  if c.cutDone then c
  else { cutDone := true, stopClosed := true, closeCount := c.closeCount + 1 }

/-!
Model of the Network scheduler (source lines 141-158).  A component is
abstracted by its Run function from the shared context to the error it
returns once its task completes.  errgroup.Group.Wait blocks until every
started task has finished and returns the error recorded by the first
failing task in completion order; the completion order is a permutation
of the spawned tasks, fixed by the scheduler. -/

/-- The Go context, reduced to what the core observes. -/
structure GoCtx where
  cancelled : Bool
deriving DecidableEq, Repr

/-- A registered component: its blocking entry point. -/
structure Component where
  run : GoCtx → Option GError

/-- The passive component registry. -/
structure Network where
  components : List Component

/-- Network.Add appends the given components. -/
def Network.Add (net : Network) (cs : List Component) : Network :=
  ⟨net.components ++ cs⟩

/-- The results of the one-task-per-component spawn loop of Network.Run:
every entry point is invoked with the identical shared context. -/
def Network.results (net : Network) (ctx : GoCtx) : List (Option GError) :=
  net.components.map (fun c => c.run ctx)

/-- errgroup.Group.Wait over the task results in completion order: the
first non-nil error wins (g.errOnce), nil if every task returned nil. -/
def netWait (order : List (Option GError)) : Option GError :=
  order.findSome? id

/-- Is the Recv program counter a returned state? -/
def isRetR : RecvPC → Bool
  | .ret _ _ => true
  | _ => false

/-- Is the Send program counter a returned state? -/
def isRetS : SendPC → Bool
  | .ret _ => true
  | _ => false

/-- Whether the Recv task itself can take a step, computed from the shape
of the select loop: false exactly in the returned states and in a parked
state whose snapshot channel has no ready partner while the context is
live. -/
def recvTaskEnabled (s : InSys) : Bool :=
  match s.pc with
  | .ret _ _ => false
  | .parked c => s.cancelled || chanReady c s.pending
  | _ => true

/-- Labels of the In system that do not install a new channel: task
steps, cancellation, data arrival, and swap(nil), i.e. Disconnect. -/
def noNewChanR : InLabel → Bool
  | .swap (some _) => false
  | _ => true

/-- Labels of the Out system that do not install a new channel. -/
def noNewChanO : OutLabel → Bool
  | .swap (some _) => false
  | _ => true

/-- Star of the In system restricted to steps that never install a new
channel. -/
inductive InReachNC : InSys → InSys → Prop where
  | refl (s : InSys) : InReachNC s s
  | step {l : InLabel} {s t u : InSys} (h : InStep l s t)
      (hl : noNewChanR l = true) (ht : InReachNC t u) : InReachNC s u

/-- Star of the Out system restricted to steps that never install a new
channel. -/
inductive OutReachNC : OutSys → OutSys → Prop where
  | refl (s : OutSys) : OutReachNC s s
  | step {l : OutLabel} {s t u : OutSys} (h : OutStep l s t)
      (hl : noNewChanO l = true) (ht : OutReachNC t u) : OutReachNC s u

/-- A Recv task on a disconnected port: the bound channel is absent and
the task is anywhere in its wait loop with an absent snapshot. -/
def stalledR (s : InSys) : Prop :=
  s.current = none ∧
    (s.pc = .start ∨ s.pc = .loopTop ∨ s.pc = .drained ∨
     s.pc = .evaluated none ∨ s.pc = .parked none)

/-- A Send task on a disconnected port. -/
def stalledS (s : OutSys) : Prop :=
  s.current = none ∧
    (s.pc = .start ∨ s.pc = .loopTop ∨ s.pc = .drained ∨
     s.pc = .evaluated none ∨ s.pc = .parked none)

/-- Every channel bound by this port was allocated earlier than n. -/
def boundBelow (n : Nat) (p : PortSt) : Bool :=
  match p.data with
  | some ch => ch < n
  | none => true

/-- Allocator invariant of the world: every bound channel id is below the
fresh counter. -/
def FlowW.chanInv (w : FlowW) : Bool :=
  (w.outs ++ w.ins).all (boundBelow w.nextChan)

/-!  Concrete states used to evaluate the theorems on explicit inputs. -/

/-- A Recv call entered on a port bound to channel 0, context live. -/
def lostStart : InSys :=
  { current := some 0, pingCreated := false, cancelled := false,
    pending := [], pc := .start }

/-- The state produced by the lost-wakeup interleaving: channel 1 is the
latest bound channel and offers the value 42, but the task is parked on
the stale snapshot channel 0. -/
def lostStuck : InSys :=
  { current := some 1, pingCreated := true, cancelled := false,
    pending := [(1, 42)], pc := .parked (some 0) }

/-- A Recv call parked on a disconnected port. -/
def stallStart : InSys :=
  { current := none, pingCreated := true, cancelled := false,
    pending := [], pc := .parked none }

/-- The state after a later Connect binds channel 1, a sender offers 7 on
it, and the woken task completes the transfer. -/
def stallEnd : InSys :=
  { current := some 1, pingCreated := true, cancelled := false,
    pending := [], pc := .ret 7 none }

/-- World with one out port and one in port, nothing allocated yet. -/
def cexW0 : FlowW :=
  { outs := [default], ins := [default], nextChan := 0, caps := [],
    closed := [], nextPing := 0 }

/-- The connection returned by wiring port 0 to port 0 in cexW0. -/
def cexC : Conn := (Connect 0 0 cexW0).1

/-- The world after that Connect: both ports bound to channel 0. -/
def cexW1 : FlowW := (Connect 0 0 cexW0).2

/-- The world after Disconnect, a second Connect (allocating channel 1),
and a repeated Disconnect of the first, already-cut connection. -/
def cexW3 : FlowW := cexC.Disconnect (Connect 0 0 (cexC.Disconnect cexW1)).2

/-- The world after invoking Disconnect twice on the same connection. -/
def cexTwice : FlowW := cexC.Disconnect (cexC.Disconnect cexW1)

/-- Example network: a clean component and a failing component. -/
def netEx : Network := ⟨[⟨fun _ => none⟩, ⟨fun _ => some (.failure 7)⟩]⟩

/-- An uncancelled shared context. -/
def ctxEx : GoCtx := ⟨false⟩

/-- A Recv call parked on channel 0 under a cancelled context. -/
def cancelParked : InSys :=
  { current := some 0, pingCreated := true, cancelled := true,
    pending := [], pc := .parked (some 0) }

/-- A Recv call entered under an already-cancelled context while a
partner is ready on the bound channel 0 with value 5. -/
def preCancelledR : InSys :=
  { current := some 0, pingCreated := false, cancelled := true,
    pending := [(0, 5)], pc := .start }

/-- A Send call entered under an already-cancelled context while a
receiver is ready on the bound channel 0. -/
def preCancelledS : OutSys :=
  { current := some 0, pingCreated := false, cancelled := true,
    recvReady := [0], delivered := [], v := 5, pc := .start }

/-- A Send call parked on a disconnected port. -/
def stallStartS : OutSys :=
  { current := none, pingCreated := true, cancelled := false,
    recvReady := [], delivered := [], v := 3, pc := .parked none }

/-- A Recv call parked on channel 0 while a sender offers 5 there. -/
def readyParked : InSys :=
  { current := some 0, pingCreated := true, cancelled := false,
    pending := [(0, 5)], pc := .parked (some 0) }

/-- A Send call parked on channel 0 while a receiver is ready there. -/
def readyParkedS : OutSys :=
  { current := some 0, pingCreated := true, cancelled := false,
    recvReady := [0], delivered := [], v := 5, pc := .parked (some 0) }

/-- The stalled Recv of stallStart after cancellation has unblocked it. -/
def stallCancelled : InSys :=
  { current := none, pingCreated := true, cancelled := true,
    pending := [], pc := .ret 0 (some .canceled) }

/-!  Helper lemmas shared by several developments. -/

/-- Reading back the entry just written by set. -/
theorem getD_set_self {α : Type} [Inhabited α] (l : List α) (i : Nat) (a : α)
    (h : i < l.length) : (l.set i a).getD i default = a := by
  simp [List.getD_eq_getElem?_getD, List.getElem?_set_self', h]

/-- Reading any entry of a list after set. -/
theorem getD_set_cases {α : Type} [Inhabited α] (l : List α) (i j : Nat) (a : α) :
    (l.set j a).getD i default =
      if j = i ∧ j < l.length then a else l.getD i default := by
  simp only [List.getD_eq_getElem?_getD, List.getElem?_set]
  by_cases hji : j = i
  · subst hji
    by_cases hl : j < l.length
    · simp [hl]
    · simp [hl, List.getElem?_eq_none (Nat.le_of_not_lt hl)]
  · simp [hji]

/-- Reading the appended entry of a concatenation. -/
theorem getD_concat_self {α : Type} (l : List α) (a d : α) :
    (l ++ [a]).getD l.length d = a := by
  simp [List.getD_eq_getElem?_getD, List.getElem?_concat_length]

/-- Fields of a port after init followed by the swap body: the new
channel is installed, the swap counter advances, the ping channel exists,
and an already-created ping channel is kept. -/
theorem init_swapData_fields (p : PortSt) (f : Nat) (nc : Option Chan) :
    ((p.init f).swapData nc).data = nc
    ∧ ((p.init f).swapData nc).swaps = p.swaps + 1
    ∧ ((p.init f).swapData nc).ping.isSome = true
    ∧ (∀ k, p.ping = some k → ((p.init f).swapData nc).ping = some k) := by
  cases hp : p.ping <;> simp [PortSt.init, PortSt.swapData, hp]

/-- Cut is the identity once the sync.Once flag is set. -/
theorem cut_iterate_done (n : Nat) (c : StringConnection) (h : c.cutDone = true) :
    StringConnection.Cut^[n] c = c := by
  induction n with
  | zero => rfl
  | succ n ih =>
      rw [Function.iterate_succ_apply]
      have hc : c.Cut = c := by simp [StringConnection.Cut, h]
      rw [hc, ih]

/-- C5: Connect allocates a fresh unbuffered data channel, installs it
via swap on both given ports, so that afterwards both ports hold exactly
the newly allocated channel (which differs from every channel bound
before), and the returned handle references exactly the two given
ports. -/
theorem connect_installs_fresh_channel
    (w : FlowW) (i j : Nat)
    (hi : i < w.outs.length) (hj : j < w.ins.length)
    (hinv : w.chanInv = true) (hcap : w.caps.length = w.nextChan) :
    (Connect i j w).1 = ⟨i, j⟩
    ∧ ((Connect i j w).2.outs.getD i default).data = some w.nextChan
    ∧ ((Connect i j w).2.ins.getD j default).data = some w.nextChan
    ∧ (Connect i j w).2.caps.getD w.nextChan 1 = 0
    ∧ (∀ p ∈ w.outs ++ w.ins, p.data ≠ some w.nextChan)
    ∧ ((Connect i j w).2.outs.getD i default).swaps
        = (w.outs.getD i default).swaps + 1
    ∧ ((Connect i j w).2.ins.getD j default).swaps
        = (w.ins.getD j default).swaps + 1 := by
  have houts : (Connect i j w).2.outs
      = w.outs.set i (((w.outs.getD i default).init w.nextPing).swapData
          (some w.nextChan)) := rfl
  have hins : (Connect i j w).2.ins
      = w.ins.set j (((w.ins.getD j default).init (w.nextPing + 1)).swapData
          (some w.nextChan)) := rfl
  have hcaps : (Connect i j w).2.caps = w.caps ++ [0] := rfl
  refine ⟨rfl, ?_, ?_, ?_, ?_, ?_, ?_⟩
  · rw [houts, getD_set_self _ _ _ hi]
    exact (init_swapData_fields _ _ _).1
  · rw [hins, getD_set_self _ _ _ hj]
    exact (init_swapData_fields _ _ _).1
  · rw [hcaps, ← hcap, getD_concat_self]
  · intro p hp hdata
    have hb := List.all_eq_true.mp hinv p hp
    simp [boundBelow, hdata] at hb
  · rw [houts, getD_set_self _ _ _ hi]
    exact (init_swapData_fields _ _ _).2.1
  · rw [hins, getD_set_self _ _ _ hj]
    exact (init_swapData_fields _ _ _).2.1

/-- C5 witness: evaluating Connect on a concrete world with one out and
one in port. -/
theorem connect_installs_fresh_channel_w :
    (Connect 0 0 cexW0).1 = ⟨0, 0⟩
    ∧ ((Connect 0 0 cexW0).2.outs.getD 0 default).data = some 0
    ∧ ((Connect 0 0 cexW0).2.ins.getD 0 default).data = some 0 := by
  have h := connect_installs_fresh_channel cexW0 0 0 (by decide) (by decide)
    (by decide) rfl
  exact ⟨h.1, h.2.1, h.2.2.1⟩

/-- C7: Network.Run spawns one task per registered component with the
identical shared context, waits for all of them, and its result is the
first non-nil error in completion order: nil exactly when every component
returned nil, and any reported error is the result of one of the
components. -/
theorem network_run_first_error
    (net : Network) (ctx : GoCtx) (order : List (Option GError))
    (hperm : order.Perm (net.results ctx)) :
    (netWait order = none ↔ ∀ r ∈ net.results ctx, r = none)
    ∧ (∀ e, netWait order = some e → some e ∈ net.results ctx)
    ∧ net.results ctx = net.components.map (fun c => c.run ctx)
    ∧ order.length = net.components.length := by
  refine ⟨?_, ?_, rfl, ?_⟩
  · unfold netWait
    rw [List.findSome?_eq_none_iff]
    constructor
    · intro h r hr
      have := h r (hperm.mem_iff.mpr hr)
      simpa using this
    · intro h x hx
      have := h x (hperm.mem_iff.mp hx)
      simpa using this
  · intro e he
    obtain ⟨a, ha, hab⟩ := List.exists_of_findSome?_eq_some he
    simp only [id] at hab
    rw [hab] at ha
    exact hperm.mem_iff.mp ha
  · rw [hperm.length_eq]
    simp [Network.results]

/-- C7 witness: on a two-component network with one failing component,
the reported error is the result of a registered component. -/
theorem network_run_first_error_w :
    some (GError.failure 7) ∈ netEx.results ctxEx := by
  have h := network_run_first_error netEx ctxEx (netEx.results ctxEx)
    (List.Perm.refl _)
  exact h.2.1 (GError.failure 7) rfl

/-- C4 counterexample: Conn.Disconnect has no one-shot guard.  After
Connect (one swap per port) the claim predicts that any number of
Disconnect calls adds exactly one further swap per port, so the ghost
counter would read 2; invoking Disconnect twice actually leaves it at 3.
Moreover a repeated Disconnect is not effect-free: it unbinds the
channel installed by a later Connect (cexW3 ends absent although channel
1 had just been installed). -/
theorem conn_disconnect_cex :
    (cexTwice.outs.getD 0 default).swaps = 3
    ∧ ¬ (cexTwice.outs.getD 0 default).swaps = 2
    ∧ (cexTwice.ins.getD 0 default).swaps = 3
    ∧ ((Connect 0 0 (cexC.Disconnect cexW1)).2.outs.getD 0 default).data = some 1
    ∧ (cexW3.outs.getD 0 default).data = none := by
  decide

/-- C4 amended: each invocation of Conn.Disconnect performs one
Swap(absent) on either port (so N invocations perform N, not one), the
resulting binding is absent after every invocation, and only the
StringConnection variant is one-shot: its sync.Once runs close(stop)
exactly once over any number of Cut calls. -/
theorem conn_disconnect_each_call_and_cut_once :
    (∀ (c : Conn) (w : FlowW), c.from_ < w.outs.length → c.to_ < w.ins.length →
      ((c.Disconnect w).outs.getD c.from_ default).data = none
      ∧ ((c.Disconnect w).ins.getD c.to_ default).data = none
      ∧ ((c.Disconnect w).outs.getD c.from_ default).swaps
          = (w.outs.getD c.from_ default).swaps + 1
      ∧ ((c.Disconnect w).ins.getD c.to_ default).swaps
          = (w.ins.getD c.to_ default).swaps + 1)
    ∧ (∀ (n : Nat) (sc : StringConnection), sc.cutDone = false →
        sc.closeCount = 0 →
        (StringConnection.Cut^[n + 1] sc).closeCount = 1
        ∧ (StringConnection.Cut^[n + 1] sc).stopClosed = true) := by
  constructor
  · intro c w hfrom hto
    have houts : (c.Disconnect w).outs
        = w.outs.set c.from_ (((w.outs.getD c.from_ default).init w.nextPing).swapData none) := rfl
    have hins : (c.Disconnect w).ins
        = w.ins.set c.to_ (((w.ins.getD c.to_ default).init (w.nextPing + 1)).swapData none) := rfl
    refine ⟨?_, ?_, ?_, ?_⟩
    · rw [houts, getD_set_self _ _ _ hfrom]
      exact (init_swapData_fields _ _ _).1
    · rw [hins, getD_set_self _ _ _ hto]
      exact (init_swapData_fields _ _ _).1
    · rw [houts, getD_set_self _ _ _ hfrom]
      exact (init_swapData_fields _ _ _).2.1
    · rw [hins, getD_set_self _ _ _ hto]
      exact (init_swapData_fields _ _ _).2.1
  · intro n sc h1 h2
    have hc : sc.Cut = ⟨true, true, 1⟩ := by
      simp [StringConnection.Cut, h1, h2]
    rw [Function.iterate_succ_apply, hc, cut_iterate_done n _ rfl]
    exact ⟨rfl, rfl⟩

/-- C4 amended witness: evaluating both parts on concrete inputs: a
Disconnect on the freshly connected world, and three Cut calls on a
fresh StringConnection. -/
theorem conn_disconnect_each_call_and_cut_once_w :
    ((cexC.Disconnect cexW1).outs.getD 0 default).data = none
    ∧ (StringConnection.Cut^[3] ⟨false, false, 0⟩).closeCount = 1 := by
  refine ⟨?_, ?_⟩
  · exact (conn_disconnect_each_call_and_cut_once.1 cexC cexW1
      (by decide) (by decide)).1
  · exact (conn_disconnect_each_call_and_cut_once.2 2 ⟨false, false, 0⟩ rfl rfl).1

/-- Soundness of the enabledness check: when recvTaskEnabled computes
false, the Recv task has no step at all. -/
theorem recvTaskEnabled_sound (s : InSys) (h : recvTaskEnabled s = false) :
    ∀ t, ¬ InStep .task s t := by
  intro t hstep
  cases hstep with
  | start_cancel _ hpc _ => simp [recvTaskEnabled, hpc] at h
  | start_ok _ hpc _ => simp [recvTaskEnabled, hpc] at h
  | drain _ hpc => simp [recvTaskEnabled, hpc] at h
  | read_current _ hpc => simp [recvTaskEnabled, hpc] at h
  | poll_cancel _ c hpc _ => simp [recvTaskEnabled, hpc] at h
  | poll_transfer _ ch v hpc hm => simp [recvTaskEnabled, hpc] at h
  | park _ c hpc _ _ => simp [recvTaskEnabled, hpc] at h
  | parked_cancel _ c hpc hc => simp [recvTaskEnabled, hpc, hc] at h
  | parked_transfer _ ch v hpc hm =>
      have hr : chanReady (some ch) s.pending = true := by
        simp only [chanReady, List.any_eq_true]
        exact ⟨(ch, v), hm, by simp⟩
      simp [recvTaskEnabled, hpc, hr] at h

/-- C1 (evidence of the code bug): the lost-wakeup interleaving.  A Recv
has evaluated current() = channel 0 inside its select but has not yet
parked; a Disconnect and then a Connect installing channel 1 run to
completion, and both of their notify sends on the unbuffered ping
channel take the default branch (no receiver is parked) and are skipped;
the task then parks on the stale channel 0, after which a value arrives
on the latest bound channel 1.  In the resulting state the latest
channel offers 42 but the task is parked on channel 0 and has no enabled
step: the swap was lost, so Recv does not complete against the latest
bound channel, contradicting the drain-then-select never-lost property
(the spec prescribes a capacity-1 signal buffer; the code allocates an
unbuffered one, and the drain can never fire on an unbuffered channel
whose only sender is itself non-blocking). -/
theorem recv_lost_wakeup :
    InReach lostStart lostStuck
    ∧ lostStuck.current = some 1
    ∧ lostStuck.pc = .parked (some 0)
    ∧ (1, 42) ∈ lostStuck.pending
    ∧ recvTaskEnabled lostStuck = false := by
  refine ⟨?_, rfl, rfl, by decide, rfl⟩
  exact .step (.start_ok _ rfl rfl)
    (.step (.drain _ rfl)
    (.step (.read_current _ rfl)
    (.step (.swapStep none _)
    (.step (.swapStep (some 1) _)
    (.step (.park _ (some 0) rfl rfl rfl)
    (.step (.arrive 1 42 _)
    (.refl _)))))))

/-- C2: a Recv or Send call returns only in one of two ways: a transfer
on the channel its current wait iteration holds (Recv yields the value
with a nil error, Send a nil error), or cancellation, yielding the
cancellation error.  Each iteration reads its channel from the current
field (read_current), and a swap received while parked restarts the wait
loop against the new current channel instead of returning an error. -/
theorem recv_send_outcomes :
    (∀ (l : InLabel) (s s' : InSys) (v : Nat) (e : Option GError),
      InStep l s s' → isRetR s.pc = false → s'.pc = .ret v e →
        (e = none ∧ ∃ ch, ((s.pc = .evaluated (some ch) ∨ s.pc = .parked (some ch))
            ∧ (ch, v) ∈ s.pending))
        ∨ (v = 0 ∧ e = some .canceled ∧ s.cancelled = true))
    ∧ (∀ s : InSys, s.pc = .drained →
        InStep .task s { s with pc := .evaluated s.current })
    ∧ (∀ (nc c : Option Chan) (s : InSys), s.pc = .parked c →
        (swapEff nc s).pc = .loopTop ∧ (swapEff nc s).current = nc)
    ∧ (∀ (l : OutLabel) (s s' : OutSys) (e : Option GError),
      OutStep l s s' → isRetS s.pc = false → s'.pc = .ret e →
        (e = none ∧ ∃ ch, ((s.pc = .evaluated (some ch) ∨ s.pc = .parked (some ch))
            ∧ ch ∈ s.recvReady))
        ∨ (e = some .canceled ∧ s.cancelled = true))
    ∧ (∀ s : OutSys, s.pc = .drained →
        OutStep .task s { s with pc := .evaluated s.current })
    ∧ (∀ (nc c : Option Chan) (s : OutSys), s.pc = .parked c →
        (swapEffO nc s).pc = .loopTop ∧ (swapEffO nc s).current = nc) := by
  refine ⟨?_, ?_, ?_, ?_, ?_, ?_⟩
  · intro l s s' v e hstep hret hpc
    cases hstep with
    | start_cancel _ h1 h2 =>
        simp only [] at hpc
        cases hpc
        exact Or.inr ⟨rfl, rfl, h2⟩
    | start_ok _ h1 h2 => simp at hpc
    | drain _ h1 => simp at hpc
    | read_current _ h1 => simp at hpc
    | poll_cancel _ c h1 h2 =>
        cases hpc
        exact Or.inr ⟨rfl, rfl, h2⟩
    | poll_transfer _ ch v0 h1 hm =>
        cases hpc
        exact Or.inl ⟨rfl, ch, Or.inl h1, hm⟩
    | park _ c h1 h2 h3 => simp at hpc
    | parked_cancel _ c h1 h2 =>
        cases hpc
        exact Or.inr ⟨rfl, rfl, h2⟩
    | parked_transfer _ ch v0 h1 hm =>
        cases hpc
        exact Or.inl ⟨rfl, ch, Or.inr h1, hm⟩
    | cancel _ =>
        rw [show ({ s with cancelled := true } : InSys).pc = s.pc from rfl] at hpc
        rw [hpc] at hret
        simp [isRetR] at hret
    | swapStep nc _ =>
        rw [show (swapEff nc s).pc = notifyPC s.pc from rfl] at hpc
        cases hs : s.pc <;> rw [hs] at hpc hret <;>
          simp_all [notifyPC, isRetR]
    | arrive ch v0 _ =>
        rw [show ({ s with pending := s.pending ++ [(ch, v0)] } : InSys).pc = s.pc
          from rfl] at hpc
        rw [hpc] at hret
        simp [isRetR] at hret
  · intro s h
    exact .read_current s h
  · intro nc c s h
    exact ⟨by simp [swapEff, notifyPC, h], rfl⟩
  · intro l s s' e hstep hret hpc
    cases hstep with
    | start_cancel _ h1 h2 =>
        cases hpc
        exact Or.inr ⟨rfl, h2⟩
    | start_ok _ h1 h2 => simp at hpc
    | drain _ h1 => simp at hpc
    | read_current _ h1 => simp at hpc
    | poll_cancel _ c h1 h2 =>
        cases hpc
        exact Or.inr ⟨rfl, h2⟩
    | poll_transfer _ ch h1 hm =>
        cases hpc
        exact Or.inl ⟨rfl, ch, Or.inl h1, hm⟩
    | park _ c h1 h2 h3 => simp at hpc
    | parked_cancel _ c h1 h2 =>
        cases hpc
        exact Or.inr ⟨rfl, h2⟩
    | parked_transfer _ ch h1 hm =>
        cases hpc
        exact Or.inl ⟨rfl, ch, Or.inr h1, hm⟩
    | cancel _ =>
        rw [show ({ s with cancelled := true } : OutSys).pc = s.pc from rfl] at hpc
        rw [hpc] at hret
        simp [isRetS] at hret
    | swapStep nc _ =>
        rw [show (swapEffO nc s).pc = notifySPC s.pc from rfl] at hpc
        cases hs : s.pc <;> rw [hs] at hpc hret <;>
          simp_all [notifySPC, isRetS]
    | arrive ch _ =>
        rw [show ({ s with recvReady := s.recvReady ++ [ch] } : OutSys).pc = s.pc
          from rfl] at hpc
        rw [hpc] at hret
        simp [isRetS] at hret
  · intro s h
    exact .read_current s h
  · intro nc c s h
    exact ⟨by simp [swapEffO, notifySPC, h], rfl⟩

/-- C2 witness: a parked Recv with a ready sender classifies as a
transfer return, and a swap received by a parked Recv restarts the loop
against the new current channel. -/
theorem recv_send_outcomes_w :
    (((none : Option GError) = none
        ∧ ∃ ch, ((readyParked.pc = .evaluated (some ch)
              ∨ readyParked.pc = .parked (some ch))
            ∧ (ch, 5) ∈ readyParked.pending))
      ∨ (5 = 0 ∧ (none : Option GError) = some .canceled
          ∧ readyParked.cancelled = true))
    ∧ ((swapEff (some 1) stallStart).pc = .loopTop
        ∧ (swapEff (some 1) stallStart).current = some 1) := by
  constructor
  · exact recv_send_outcomes.1 .task readyParked
      { readyParked with
        pc := .ret 5 none
        pending := readyParked.pending.erase (0, 5) } 5 none
      (.parked_transfer _ 0 5 rfl (by decide)) rfl rfl
  · exact recv_send_outcomes.2.2.1 (some 1) none stallStart rfl

/-- Once Recv has returned, every further step keeps the returned pair
and the cancellation flag. -/
theorem ret_stable_r {l : InLabel} {s s' : InSys} (v : Nat) (e : Option GError)
    (hpc : s.pc = .ret v e) (hc : s.cancelled = true) (h : InStep l s s') :
    s'.pc = .ret v e ∧ s'.cancelled = true := by
  cases h <;> simp_all [swapEff, notifyPC]

/-- Once Send has returned, every further step keeps the returned error
and the cancellation flag. -/
theorem ret_stable_s {l : OutLabel} {s s' : OutSys} (e : Option GError)
    (hpc : s.pc = .ret e) (hc : s.cancelled = true) (h : OutStep l s s') :
    s'.pc = .ret e ∧ s'.cancelled = true := by
  cases h <;> simp_all [swapEffO, notifySPC]

/-- Star version of ret_stable_r over channel-free steps. -/
theorem ret_star_r {s s' : InSys} (h : InReachNC s s') (v : Nat)
    (e : Option GError) :
    s.pc = .ret v e → s.cancelled = true →
    s'.pc = .ret v e ∧ s'.cancelled = true := by
  induction h with
  | refl _ => exact fun h1 h2 => ⟨h1, h2⟩
  | step hstep hl ht ih =>
      intro h1 h2
      obtain ⟨h3, h4⟩ := ret_stable_r _ _ h1 h2 hstep
      exact ih h3 h4

/-- Star version of ret_stable_s over channel-free steps. -/
theorem ret_star_s {s s' : OutSys} (h : OutReachNC s s') (e : Option GError) :
    s.pc = .ret e → s.cancelled = true →
    s'.pc = .ret e ∧ s'.cancelled = true := by
  induction h with
  | refl _ => exact fun h1 h2 => ⟨h1, h2⟩
  | step hstep hl ht ih =>
      intro h1 h2
      obtain ⟨h3, h4⟩ := ret_stable_s _ h1 h2 hstep
      exact ih h3 h4

/-- A stalled Recv stays stalled under every step that does not install a
new channel, unless cancellation returns it. -/
theorem stalled_step_r {l : InLabel} {s s' : InSys}
    (hs : stalledR s) (h : InStep l s s') (hl : noNewChanR l = true) :
    stalledR s' ∨ (s'.pc = .ret 0 (some .canceled) ∧ s'.cancelled = true) := by
  obtain ⟨hcur, hpc⟩ := hs
  cases h with
  | start_cancel _ h1 h2 => exact Or.inr ⟨rfl, h2⟩
  | start_ok _ h1 h2 => exact Or.inl ⟨hcur, by simp⟩
  | drain _ h1 => exact Or.inl ⟨hcur, by simp⟩
  | read_current _ h1 => exact Or.inl ⟨hcur, by simp [hcur]⟩
  | poll_cancel _ c h1 h2 => exact Or.inr ⟨rfl, h2⟩
  | poll_transfer _ ch v h1 hm => rw [h1] at hpc; simp at hpc
  | park _ c h1 h2 h3 =>
      rw [h1] at hpc
      have hc0 : c = none := by
        rcases hpc with h | h | h | h | h <;> simp_all
      exact Or.inl ⟨hcur, by simp [hc0]⟩
  | parked_cancel _ c h1 h2 => exact Or.inr ⟨rfl, h2⟩
  | parked_transfer _ ch v h1 hm => rw [h1] at hpc; simp at hpc
  | cancel _ => exact Or.inl ⟨hcur, by simpa using hpc⟩
  | swapStep nc _ =>
      have hnc : nc = none := by
        cases nc with
        | none => rfl
        | some ch => simp [noNewChanR] at hl
      subst hnc
      refine Or.inl ⟨rfl, ?_⟩
      rcases hpc with h | h | h | h | h <;> simp [swapEff, notifyPC, h]
  | arrive ch v _ => exact Or.inl ⟨hcur, by simpa using hpc⟩

/-- A stalled Send stays stalled under every step that does not install a
new channel, unless cancellation returns it. -/
theorem stalled_step_s {l : OutLabel} {s s' : OutSys}
    (hs : stalledS s) (h : OutStep l s s') (hl : noNewChanO l = true) :
    stalledS s' ∨ (s'.pc = .ret (some .canceled) ∧ s'.cancelled = true) := by
  obtain ⟨hcur, hpc⟩ := hs
  cases h with
  | start_cancel _ h1 h2 => exact Or.inr ⟨rfl, h2⟩
  | start_ok _ h1 h2 => exact Or.inl ⟨hcur, by simp⟩
  | drain _ h1 => exact Or.inl ⟨hcur, by simp⟩
  | read_current _ h1 => exact Or.inl ⟨hcur, by simp [hcur]⟩
  | poll_cancel _ c h1 h2 => exact Or.inr ⟨rfl, h2⟩
  | poll_transfer _ ch h1 hm => rw [h1] at hpc; simp at hpc
  | park _ c h1 h2 h3 =>
      rw [h1] at hpc
      have hc0 : c = none := by
        rcases hpc with h | h | h | h | h <;> simp_all
      exact Or.inl ⟨hcur, by simp [hc0]⟩
  | parked_cancel _ c h1 h2 => exact Or.inr ⟨rfl, h2⟩
  | parked_transfer _ ch h1 hm => rw [h1] at hpc; simp at hpc
  | cancel _ => exact Or.inl ⟨hcur, by simpa using hpc⟩
  | swapStep nc _ =>
      have hnc : nc = none := by
        cases nc with
        | none => rfl
        | some ch => simp [noNewChanO] at hl
      subst hnc
      refine Or.inl ⟨rfl, ?_⟩
      rcases hpc with h | h | h | h | h <;> simp [swapEffO, notifySPC, h]
  | arrive ch _ => exact Or.inl ⟨hcur, by simpa using hpc⟩

/-- Invariant of the stalled Recv over any number of channel-free
steps. -/
theorem stalled_star_r {s s' : InSys} (h : InReachNC s s') :
    stalledR s →
    stalledR s' ∨ (s'.pc = .ret 0 (some .canceled) ∧ s'.cancelled = true) := by
  induction h with
  | refl _ => exact fun hs => Or.inl hs
  | step hstep hl ht ih =>
      intro hs
      rcases stalled_step_r hs hstep hl with h1 | h1
      · exact ih h1
      · exact Or.inr (ret_star_r ht 0 (some .canceled) h1.1 h1.2)

/-- Invariant of the stalled Send over any number of channel-free
steps. -/
theorem stalled_star_s {s s' : OutSys} (h : OutReachNC s s') :
    stalledS s →
    stalledS s' ∨ (s'.pc = .ret (some .canceled) ∧ s'.cancelled = true) := by
  induction h with
  | refl _ => exact fun hs => Or.inl hs
  | step hstep hl ht ih =>
      intro hs
      rcases stalled_step_s hs hstep hl with h1 | h1
      · exact ih h1
      · exact Or.inr (ret_star_s ht (some .canceled) h1.1 h1.2)

/-- C3: a Recv or Send whose port was swapped to absent blocks again on
the absent channel: under every run of steps that never installs a new
channel it never completes a transfer and never returns any error other
than the cancellation error under a cancelled context; the only other
way out is a subsequent Swap installing a channel that completes a
transfer, exhibited by the concrete run from stallStart to stallEnd. -/
theorem stalled_port_blocks :
    (∀ s s' : InSys, stalledR s → InReachNC s s' →
      (∀ v, s'.pc ≠ .ret v none)
      ∧ (∀ v e, s'.pc = .ret v e →
          v = 0 ∧ e = some .canceled ∧ s'.cancelled = true))
    ∧ (∀ s s' : OutSys, stalledS s → OutReachNC s s' →
      (∀ e, s'.pc = .ret e → e = some .canceled ∧ s'.cancelled = true))
    ∧ InReach stallStart stallEnd ∧ stallEnd.pc = .ret 7 none := by
  refine ⟨?_, ?_, ?_, rfl⟩
  · intro s s' hs h
    rcases stalled_star_r h hs with h1 | h1
    · obtain ⟨hcur, hpc⟩ := h1
      constructor
      · intro v hv
        rw [hv] at hpc
        simp at hpc
      · intro v e hv
        rw [hv] at hpc
        simp at hpc
    · constructor
      · intro v hv
        rw [hv] at h1
        simp at h1
      · intro v e hv
        have h2 := h1.1.symm.trans hv
        injection h2 with e1 e2
        exact ⟨e1.symm, e2.symm, h1.2⟩
  · intro s s' hs h
    rcases stalled_star_s h hs with h1 | h1
    · obtain ⟨hcur, hpc⟩ := h1
      intro e hv
      rw [hv] at hpc
      simp at hpc
    · intro e hv
      have h2 := h1.1.symm.trans hv
      injection h2 with e1
      exact ⟨e1.symm, h1.2⟩
  · exact .step (.swapStep (some 1) _)
      (.step (.arrive 1 7 _)
      (.step (.drain _ rfl)
      (.step (.read_current _ rfl)
      (.step (.poll_transfer _ 1 7 rfl (by decide))
      (.refl _)))))

/-- C3 witness: from the parked-on-absent state, cancellation is the one
exit without a new channel, and the returned pair is the zero value with
the cancellation error. -/
theorem stalled_port_blocks_w :
    0 = 0 ∧ some GError.canceled = some GError.canceled
      ∧ stallCancelled.cancelled = true := by
  exact (stalled_port_blocks.1 stallStart stallCancelled
    ⟨rfl, Or.inr (Or.inr (Or.inr (Or.inr rfl)))⟩
    (.step (.cancel _) rfl
      (.step (.parked_cancel _ none rfl rfl) rfl (.refl _)))).2
    0 (some .canceled) rfl

/-- C8: whenever a step makes Recv return with a non-nil error, the
returned value is the zero value of the element type (and the error is
the cancellation error): Recv never returns both a value and an
error. -/
theorem recv_error_returns_zero
    (l : InLabel) (s s' : InSys) (v : Nat) (e : GError)
    (h : InStep l s s') (hret : isRetR s.pc = false)
    (hpc : s'.pc = .ret v (some e)) :
    v = 0 ∧ e = .canceled := by
  cases h with
  | start_cancel _ h1 h2 => cases hpc; exact ⟨rfl, rfl⟩
  | start_ok _ h1 h2 => simp at hpc
  | drain _ h1 => simp at hpc
  | read_current _ h1 => simp at hpc
  | poll_cancel _ c h1 h2 => cases hpc; exact ⟨rfl, rfl⟩
  | poll_transfer _ ch v0 h1 hm => simp at hpc
  | park _ c h1 h2 h3 => simp at hpc
  | parked_cancel _ c h1 h2 => cases hpc; exact ⟨rfl, rfl⟩
  | parked_transfer _ ch v0 h1 hm => simp at hpc
  | cancel _ =>
      rw [show ({ s with cancelled := true } : InSys).pc = s.pc from rfl] at hpc
      rw [hpc] at hret
      simp [isRetR] at hret
  | swapStep nc _ =>
      rw [show (swapEff nc s).pc = notifyPC s.pc from rfl] at hpc
      cases hs : s.pc <;> rw [hs] at hpc hret <;> simp_all [notifyPC, isRetR]
  | arrive ch v0 _ =>
      rw [show ({ s with pending := s.pending ++ [(ch, v0)] } : InSys).pc = s.pc
        from rfl] at hpc
      rw [hpc] at hret
      simp [isRetR] at hret

/-- C8 witness: the cancellation return of a parked Recv carries the zero
value and the cancellation error. -/
theorem recv_error_returns_zero_w :
    0 = 0 ∧ GError.canceled = GError.canceled := by
  exact recv_error_returns_zero .task cancelParked
    { cancelParked with pc := .ret 0 (some .canceled) } 0 .canceled
    (.parked_cancel _ _ rfl rfl) rfl rfl

/-- C10: when the context is already cancelled on entry, Recv and Send
return the cancellation error from the initial ctx.Err() check: the only
enabled task step returns immediately and leaves all transfer state
untouched, even when a partner is ready on the current channel. -/
theorem precancelled_ctx_returns_immediately :
    (∀ s : InSys, s.pc = .start → s.cancelled = true →
      InStep .task s { s with pc := .ret 0 (some .canceled) }
      ∧ (∀ s', InStep .task s s' →
          s'.pc = .ret 0 (some .canceled) ∧ s'.pending = s.pending))
    ∧ (∀ s : OutSys, s.pc = .start → s.cancelled = true →
      OutStep .task s { s with pc := .ret (some .canceled) }
      ∧ (∀ s', OutStep .task s s' →
          s'.pc = .ret (some .canceled) ∧ s'.delivered = s.delivered
          ∧ s'.recvReady = s.recvReady)) := by
  constructor
  · intro s h1 h2
    refine ⟨.start_cancel s h1 h2, ?_⟩
    intro s' hstep
    cases hstep with
    | start_cancel _ _ _ => exact ⟨rfl, rfl⟩
    | start_ok _ _ hc => simp_all
    | drain _ hpc => simp_all
    | read_current _ hpc => simp_all
    | poll_cancel _ c hpc _ => simp_all
    | poll_transfer _ ch v0 hpc hm => simp_all
    | park _ c hpc _ _ => simp_all
    | parked_cancel _ c hpc _ => simp_all
    | parked_transfer _ ch v0 hpc hm => simp_all
  · intro s h1 h2
    refine ⟨.start_cancel s h1 h2, ?_⟩
    intro s' hstep
    cases hstep with
    | start_cancel _ _ _ => exact ⟨rfl, rfl, rfl⟩
    | start_ok _ _ hc => simp_all
    | drain _ hpc => simp_all
    | read_current _ hpc => simp_all
    | poll_cancel _ c hpc _ => simp_all
    | poll_transfer _ ch hpc hm => simp_all
    | park _ c hpc _ _ => simp_all
    | parked_cancel _ c hpc _ => simp_all
    | parked_transfer _ ch hpc hm => simp_all

/-- C10 witness: both pre-cancelled calls have an immediate cancellation
return enabled although a transfer partner is ready. -/
theorem precancelled_ctx_returns_immediately_w :
    InStep .task preCancelledR { preCancelledR with pc := .ret 0 (some .canceled) }
    ∧ OutStep .task preCancelledS { preCancelledS with pc := .ret (some .canceled) } := by
  exact ⟨(precancelled_ctx_returns_immediately.1 preCancelledR rfl rfl).1,
         (precancelled_ctx_returns_immediately.2 preCancelledS rfl rfl).1⟩

/-- The swap body keeps an already-created ping channel, at any index of
a port list. -/
theorem set_port_ping (l : List PortSt) (j i f : Nat) (nc : Option Chan)
    (k : Nat) (h : (l.getD i default).ping = some k) :
    ((l.set j (((l.getD j default).init f).swapData nc)).getD i default).ping
      = some k := by
  rw [getD_set_cases]
  by_cases hc : j = i ∧ j < l.length
  · rw [if_pos hc]
    obtain ⟨rfl, _⟩ := hc
    exact (init_swapData_fields _ _ _).2.2.2 k h
  · rw [if_neg hc]
    exact h

/-- Every wiring-layer operation keeps an already-created ping channel of
every out port. -/
theorem applyOp_ping_out (op : FlowOp) (w : FlowW) (i k : Nat)
    (h : (w.outs.getD i default).ping = some k) :
    ((applyOp op w).outs.getD i default).ping = some k := by
  cases op with
  | connect a b =>
      have he : (applyOp (.connect a b) w).outs
          = w.outs.set a (((w.outs.getD a default).init w.nextPing).swapData
              (some w.nextChan)) := rfl
      rw [he]
      exact set_port_ping _ _ _ _ _ _ h
  | disconnect c =>
      have he : (applyOp (.disconnect c) w).outs
          = w.outs.set c.from_ (((w.outs.getD c.from_ default).init
              w.nextPing).swapData none) := rfl
      rw [he]
      exact set_port_ping _ _ _ _ _ _ h
  | swapOutOp a nc =>
      have he : (applyOp (.swapOutOp a nc) w).outs
          = w.outs.set a (((w.outs.getD a default).init w.nextPing).swapData nc) := rfl
      rw [he]
      exact set_port_ping _ _ _ _ _ _ h
  | swapInOp a nc => exact h

/-- Every wiring-layer operation keeps an already-created ping channel of
every in port. -/
theorem applyOp_ping_in (op : FlowOp) (w : FlowW) (i k : Nat)
    (h : (w.ins.getD i default).ping = some k) :
    ((applyOp op w).ins.getD i default).ping = some k := by
  cases op with
  | connect a b =>
      have he : (applyOp (.connect a b) w).ins
          = w.ins.set b (((w.ins.getD b default).init (w.nextPing + 1)).swapData
              (some w.nextChan)) := rfl
      rw [he]
      exact set_port_ping _ _ _ _ _ _ h
  | disconnect c =>
      have he : (applyOp (.disconnect c) w).ins
          = w.ins.set c.to_ (((w.ins.getD c.to_ default).init
              (w.nextPing + 1)).swapData none) := rfl
      rw [he]
      exact set_port_ping _ _ _ _ _ _ h
  | swapOutOp a nc => exact h
  | swapInOp a nc =>
      have he : (applyOp (.swapInOp a nc) w).ins
          = w.ins.set a (((w.ins.getD a default).init w.nextPing).swapData nc) := rfl
      rw [he]
      exact set_port_ping _ _ _ _ _ _ h

/-- Ping stability of out ports over operation sequences. -/
theorem applyOps_ping_out (ops : List FlowOp) (w : FlowW) (i k : Nat)
    (h : (w.outs.getD i default).ping = some k) :
    ((applyOps ops w).outs.getD i default).ping = some k := by
  induction ops generalizing w with
  | nil => exact h
  | cons op ops ih => exact ih _ (applyOp_ping_out op w i k h)

/-- Ping stability of in ports over operation sequences. -/
theorem applyOps_ping_in (ops : List FlowOp) (w : FlowW) (i k : Nat)
    (h : (w.ins.getD i default).ping = some k) :
    ((applyOps ops w).ins.getD i default).ping = some k := by
  induction ops generalizing w with
  | nil => exact h
  | cons op ops ih => exact ih _ (applyOp_ping_in op w i k h)

/-- C6: Swap always succeeds without blocking: it is enabled in every
state, installs the new channel (possibly absent) as current, and runs
the sync.Once init; the non-blocking notify wakes at most one parked
task and skips when no one is listening; and the ping channel of a port
is created by the first swap and never replaced by any later
operation. -/
theorem swap_nonblocking_notify :
    (∀ (nc : Option Chan) (s : InSys),
      InStep (.swap nc) s (swapEff nc s)
      ∧ (swapEff nc s).current = nc ∧ (swapEff nc s).pingCreated = true)
    ∧ (∀ (nc : Option Chan) (s : OutSys),
      OutStep (.swap nc) s (swapEffO nc s)
      ∧ (swapEffO nc s).current = nc ∧ (swapEffO nc s).pingCreated = true)
    ∧ (∀ waiters : Nat, (notifySend waiters).2 ≤ 1)
    ∧ notifySend 0 = (0, 0)
    ∧ (∀ (w : FlowW) (i : Nat) (nc : Option Chan), i < w.outs.length →
        ((w.swapOut i nc).outs.getD i default).ping.isSome = true)
    ∧ (∀ (w : FlowW) (i : Nat) (nc : Option Chan), i < w.ins.length →
        ((w.swapIn i nc).ins.getD i default).ping.isSome = true)
    ∧ (∀ (ops : List FlowOp) (w : FlowW) (i k : Nat),
        (w.outs.getD i default).ping = some k →
        ((applyOps ops w).outs.getD i default).ping = some k)
    ∧ (∀ (ops : List FlowOp) (w : FlowW) (i k : Nat),
        (w.ins.getD i default).ping = some k →
        ((applyOps ops w).ins.getD i default).ping = some k) := by
  refine ⟨?_, ?_, ?_, rfl, ?_, ?_, applyOps_ping_out, applyOps_ping_in⟩
  · intro nc s
    exact ⟨.swapStep nc s, rfl, rfl⟩
  · intro nc s
    exact ⟨.swapStep nc s, rfl, rfl⟩
  · intro waiters
    cases waiters with
    | zero => exact Nat.zero_le _
    | succ n => exact Nat.le_refl _
  · intro w i nc hi
    have he : (w.swapOut i nc).outs
        = w.outs.set i (((w.outs.getD i default).init w.nextPing).swapData nc) := rfl
    rw [he, getD_set_self _ _ _ hi]
    exact (init_swapData_fields _ _ _).2.2.1
  · intro w i nc hi
    have he : (w.swapIn i nc).ins
        = w.ins.set i (((w.ins.getD i default).init w.nextPing).swapData nc) := rfl
    rw [he, getD_set_self _ _ _ hi]
    exact (init_swapData_fields _ _ _).2.2.1

/-- C6 witness: evaluating the swap effects on the concrete connected
world: the first swap creates the ping channel, and a later Disconnect
keeps it. -/
theorem swap_nonblocking_notify_w :
    ((cexW1.swapOut 0 none).outs.getD 0 default).ping.isSome = true
    ∧ ((applyOps [FlowOp.disconnect cexC] cexW1).outs.getD 0 default).ping
        = some 0 := by
  constructor
  · exact swap_nonblocking_notify.2.2.2.2.1 cexW1 0 none (by decide)
  · exact swap_nonblocking_notify.2.2.2.2.2.2.1 [FlowOp.disconnect cexC]
      cexW1 0 0 (by decide)

/-- C9: no core operation ever closes a data channel: every sequence of
wiring-layer operations leaves the closed set unchanged, every value a
Recv step returns was taken from an actual ready sender on its snapshot
channel (there is no end-of-stream return), and the delivery log of a
Send grows only by a rendezvous with a ready receiver. -/
theorem core_never_closes :
    (∀ (ops : List FlowOp) (w : FlowW), (applyOps ops w).closed = w.closed)
    ∧ (∀ (l : InLabel) (s s' : InSys) (v : Nat),
        InStep l s s' → isRetR s.pc = false → s'.pc = .ret v none →
        ∃ ch, (ch, v) ∈ s.pending
          ∧ (s.pc = .evaluated (some ch) ∨ s.pc = .parked (some ch)))
    ∧ (∀ (l : OutLabel) (s s' : OutSys), OutStep l s s' →
        s'.delivered = s.delivered
        ∨ ∃ ch, ch ∈ s.recvReady ∧ s'.delivered = s.delivered ++ [(ch, s.v)]) := by
  refine ⟨?_, ?_, ?_⟩
  · intro ops
    induction ops with
    | nil => intro w; rfl
    | cons op ops ih =>
        intro w
        have h1 : applyOps (op :: ops) w = applyOps ops (applyOp op w) := rfl
        rw [h1, ih]
        cases op <;> rfl
  · intro l s s' v hstep hret hpc
    cases hstep with
    | start_cancel _ h1 h2 => simp at hpc
    | start_ok _ h1 h2 => simp at hpc
    | drain _ h1 => simp at hpc
    | read_current _ h1 => simp at hpc
    | poll_cancel _ c h1 h2 => simp at hpc
    | poll_transfer _ ch v0 h1 hm =>
        cases hpc
        exact ⟨ch, hm, Or.inl h1⟩
    | park _ c h1 h2 h3 => simp at hpc
    | parked_cancel _ c h1 h2 => simp at hpc
    | parked_transfer _ ch v0 h1 hm =>
        cases hpc
        exact ⟨ch, hm, Or.inr h1⟩
    | cancel _ =>
        rw [show ({ s with cancelled := true } : InSys).pc = s.pc from rfl] at hpc
        rw [hpc] at hret
        simp [isRetR] at hret
    | swapStep nc _ =>
        rw [show (swapEff nc s).pc = notifyPC s.pc from rfl] at hpc
        cases hs : s.pc <;> rw [hs] at hpc hret <;> simp_all [notifyPC, isRetR]
    | arrive ch v0 _ =>
        rw [show ({ s with pending := s.pending ++ [(ch, v0)] } : InSys).pc = s.pc
          from rfl] at hpc
        rw [hpc] at hret
        simp [isRetR] at hret
  · intro l s s' hstep
    cases hstep with
    | poll_transfer _ ch h1 hm => exact Or.inr ⟨ch, hm, rfl⟩
    | parked_transfer _ ch h1 hm => exact Or.inr ⟨ch, hm, rfl⟩
    | start_cancel _ h1 h2 => exact Or.inl rfl
    | start_ok _ h1 h2 => exact Or.inl rfl
    | drain _ h1 => exact Or.inl rfl
    | read_current _ h1 => exact Or.inl rfl
    | poll_cancel _ c h1 h2 => exact Or.inl rfl
    | park _ c h1 h2 h3 => exact Or.inl rfl
    | parked_cancel _ c h1 h2 => exact Or.inl rfl
    | cancel _ => exact Or.inl rfl
    | swapStep nc _ => exact Or.inl rfl
    | arrive ch _ => exact Or.inl rfl

/-- C9 witness: the wiring sequence connect-disconnect-connect closes
nothing, and a concrete Recv value-return consumed a ready sender. -/
theorem core_never_closes_w :
    (applyOps [FlowOp.connect 0 0, FlowOp.disconnect cexC,
      FlowOp.connect 0 0] cexW0).closed = cexW0.closed
    ∧ ∃ ch, (ch, 5) ∈ readyParked.pending
        ∧ (readyParked.pc = .evaluated (some ch)
            ∨ readyParked.pc = .parked (some ch)) := by
  constructor
  · exact core_never_closes.1 _ cexW0
  · exact core_never_closes.2.1 .task readyParked
      { readyParked with
        pc := .ret 5 none
        pending := readyParked.pending.erase (0, 5) } 5
      (.parked_transfer _ 0 5 rfl (by decide)) rfl rfl

end Flow
